import Mathlib

/-!
Verification of the key-value serialization subsystem of the `parvati` ORM.

The definitions below are a shallow embedding, over `List Char`, of:

* the hand-rolled key/value deserializer in
  `src/lib/src/deserializer_key_values.rs` (cursor-based parsing of the
  quoted-scalar JSON-like wire format);
* the wire-format escaping function `ORM::escape_json` and the
  query-result row-reconstruction loops (`QueryBuilder::run` for the
  `Option<T>` "find one" result shape and the `Vec<T>` multi-row shape)
  in `src/lib/src/sqlite.rs` (the corresponding code in
  `src/lib/src/mysql.rs` is textually identical for the modelled part).

Strings are modelled as `List Char`.  The Rust code indexes by UTF-8 byte
position; every position it computes from a *found* character (via
`char_indices` or `str::find`) is a character boundary, so those slices are
rendered as character-list positions.  The one place where the code slices at
a byte offset it did not obtain from a character — `parse_string`'s fallback
`&self.input[end_idx + 1..]` with `end_idx = 0` when the scan finds no
unescaped quote — is modelled at the byte level: the slice succeeds exactly
when the remaining input is nonempty and its first character occupies a
single UTF-8 byte, and panics otherwise, so results carry an explicit
`panicked` outcome besides `ok` and `error` (Rust panics are a third outcome
distinct from `Result::Err`).  Machine-integer accumulation is modelled with
the release-profile wrapping semantics of the source's fixed-width types:
each arithmetic step of the digit loops is reduced into the target width
(`% 2^w` for unsigned, two's-complement wrap for signed); the `u8` digit
arithmetic (`ch as u8 - b'0'` and the `as i8` reinterpretation) is modelled
exactly as well.
-/

namespace Parvati

/-- Characters of a string literal, the ambient representation of Rust strings. -/
def chars (s : String) : List Char := s.toList

/-- The error enum of `serializer_error::Error` as used by the deserializer
(`src/lib/src/deserializer_key_values.rs`); the file `serializer_error.rs`
itself is not in the sources, but every variant below is referenced by name
from the deserializer, and the spec (section 4.1) lists the same closed set
plus a free-form message variant used for errors raised by the generic
serde-derived visitors (duplicate/missing/unknown field, invalid length). -/
inductive Error where
  | Message : String → Error
  | Eof : Error
  | Syntax : Error
  | ExpectedBoolean : Error
  | ExpectedString : Error
  | ExpectedNull : Error
  | ExpectedArray : Error
  | ExpectedArrayComma : Error
  | ExpectedArrayEnd : Error
  | ExpectedMap : Error
  | ExpectedMapColon : Error
  | ExpectedMapComma : Error
  | ExpectedMapEnd : Error
  | ExpectedEnum : Error
  | TrailingCharacters : Error
  deriving DecidableEq, Repr

/-- Outcome of a fallible Rust computation: a value, a returned `Err`, or a
panic (which in Rust is a third outcome distinct from `Result::Err` — here it
arises from the byte slice in `parse_string`'s no-quote fallback).  The panic
payload is the panic message. -/
inductive PResult (ε : Type) (α : Type) where
  | ok : α → PResult ε α
  | error : ε → PResult ε α
  | panicked : String → PResult ε α
  deriving DecidableEq, Repr

instance : Monad (PResult ε) where
  pure := .ok
  bind x f :=
    match x with
    | .ok a => f a
    | .error e => .error e
    | .panicked m => .panicked m

/-- Rust `str::starts_with` on character lists. -/
def starts_with : List Char → List Char → Bool
  | [], _ => true
  | _ :: _, [] => false
  | p :: ps, c :: cs => if c = p then starts_with ps cs else false

/-- Rust `str::replace` with a one-character pattern: every occurrence of
`p` is replaced by `rep` (matches cannot overlap for a single character). -/
def replace1 (p : Char) (rep : List Char) : List Char → List Char
  | [] => []
  | c :: cs => if c = p then rep ++ replace1 p rep cs else c :: replace1 p rep cs

/-- Rust `str::replace` with a two-character pattern `[p1, p2]`:
leftmost-first, non-overlapping replacement by `rep`. -/
def replace2 (p1 p2 : Char) (rep : List Char) : List Char → List Char
  | [] => []
  | [c] => [c]
  | c1 :: c2 :: cs =>
    if c1 = p1 then
      if c2 = p2 then rep ++ replace2 p1 p2 rep cs
      else c1 :: replace2 p1 p2 rep (c2 :: cs)
    else c1 :: replace2 p1 p2 rep (c2 :: cs)

/-- `ORM::escape_json` (src/lib/src/sqlite.rs lines 200-220): first every
backslash becomes `\\`, then every double quote becomes `\"`. -/
def escape_json (input : List Char) : List Char :=
  replace1 '"' ['\\', '"'] (replace1 '\\' ['\\', '\\'] input)

/-- The two-pass unescape at the end of `parse_string`
(src/lib/src/deserializer_key_values.rs lines 181-185): first the
two-character sequence `\"` becomes `"`, then `\\` becomes `\`. -/
def kv_unescape (s : List Char) : List Char :=
  replace2 '\\' '\\' ['\\'] (replace2 '\\' '"' ['"'] s)

/-- The scan loop of `parse_string` (lines 162-171): position of the first
unescaped `"`, tracking the `is_escaped` flag; `none` when the loop runs
off the end of the input without breaking. -/
def scan_quote : List Char → Bool → Option Nat
  | [], _ => none
  | c :: cs, esc =>
    if esc then
      match scan_quote cs false with
      | some n => some (n + 1)
      | none => none
    else if c = '\\' then
      match scan_quote cs true with
      | some n => some (n + 1)
      | none => none
    else if c = '"' then some 0
    else
      match scan_quote cs false with
      | some n => some (n + 1)
      | none => none

/-- `self.input.find('"')` used by the numeric parsers: position of the
first `"`, with no escape awareness. -/
def find_quote : List Char → Option Nat
  | [] => none
  | c :: cs =>
    if c = '"' then some 0
    else
      match find_quote cs with
      | some n => some (n + 1)
      | none => none

/-- `ch as u8 - b'0'` from the digit-accumulation loops: the character's
scalar value truncated to `u8`, minus 48 with `u8` wraparound. -/
def digit_u8 (c : Char) : Nat := ((c.toNat % 256) + 256 - 48) % 256

/-- The `as i8` reinterpretation in `parse_signed` (`let rrr = ch as u8 - b'0';
int += T::from(rrr as i8)`): values `128..=255` become negative. -/
def as_i8 (n : Nat) : Int :=
  if n % 256 < 128 then (n % 256 : Int) else (n % 256 : Int) - 256

/-- Two's-complement reduction into a `w`-bit signed machine integer: the
release-profile result of each wrapping arithmetic step on the source's
generic accumulator `T` (`i8` ... `i64`, so `w` is 8, 16, 32 or 64; debug
builds panic at the same steps instead of wrapping). -/
def wrap_int (w : Nat) (n : Int) : Int :=
  (n + 2 ^ (w - 1)) % 2 ^ w - 2 ^ (w - 1)

/-- Rust `char::len_utf8`: how many bytes the character occupies in UTF-8. -/
def utf8_len (c : Char) : Nat :=
  if c.toNat < 0x80 then 1
  else if c.toNat < 0x800 then 2
  else if c.toNat < 0x10000 then 3
  else 4

/-- `Deserializer::parse_bool` (lines 68-78). -/
def parse_bool (input : List Char) : PResult Error (Bool × List Char) :=
  if starts_with (chars "true") input then .ok (true, input.drop 4)
  else if starts_with (chars "false") input then .ok (false, input.drop 5)
  else .error .ExpectedBoolean

/-- `Deserializer::parse_unsigned` (lines 85-106): an opening `"`, then the
run up to the first `"` accumulated as `int = int * 10 + (ch as u8 - b'0')`
starting from `0`.  The generic accumulator `T` is a `w`-bit unsigned machine
integer (`u8` ... `u64`); each arithmetic step wraps into `w` bits. -/
def parse_unsigned (w : Nat) (input : List Char) : PResult Error (Nat × List Char) :=
  match input with
  | [] => .error .Eof
  | c :: rest =>
    if c = '"' then
      match find_quote rest with
      | some len =>
        .ok ((rest.take len).foldl
               (fun acc ch => (acc * 10 % 2 ^ w + digit_u8 ch) % 2 ^ w) 0,
             rest.drop (len + 1))
      | none => .error .Eof
    else .error .ExpectedString

/-- `Deserializer::parse_signed` (lines 112-145): an opening `"`, the run up
to the first `"`; a leading `-` is stripped and remembered as `sign = -1`;
the remaining characters are accumulated as
`int = int * 10 + ((ch as u8 - b'0') as i8)` from `0`; finally `int *= sign`.
The generic accumulator `T` is a `w`-bit signed machine integer
(`i8` ... `i64`); each arithmetic step wraps into `w` bits. -/
def parse_signed (w : Nat) (input : List Char) : PResult Error (Int × List Char) :=
  match input with
  | [] => .error .Eof
  | c :: rest =>
    if c = '"' then
      match find_quote rest with
      | some len =>
        .ok (wrap_int w
              ((if starts_with (chars "-") (rest.take len)
                then ((rest.take len).drop 1).foldl
                       (fun acc ch => wrap_int w (wrap_int w (acc * 10) + as_i8 (digit_u8 ch))) 0
                else (rest.take len).foldl
                       (fun acc ch => wrap_int w (wrap_int w (acc * 10) + as_i8 (digit_u8 ch))) 0)
               * (if starts_with (chars "-") (rest.take len) then -1 else 1)),
             rest.drop (len + 1))
      | none => .error .Eof
    else .error .ExpectedString

/-- `Deserializer::parse_string` (lines 153-189): an opening `"`, then a scan
with an escape flag up to the first unescaped `"`, the slice before it
two-pass unescaped, and the cursor moved one past `end_idx`.  When the scan
finds no unescaped quote, `end_idx` stays `0` and the code still executes
`self.input = &self.input[end_idx + 1..]` — a slice at **byte** index 1,
which panics unless the remaining input is nonempty and its first character
is a single UTF-8 byte (for every found quote, `end_idx + 1` is the boundary
just past the one-byte `"`, so the found branch never panics). -/
def parse_string (input : List Char) : PResult Error (List Char × List Char) :=
  match input with
  | [] => .error .Eof
  | c :: rest =>
    if c = '"' then
      match scan_quote rest false with
      | some end_idx => .ok (kv_unescape (rest.take end_idx), rest.drop (end_idx + 1))
      | none =>
        match rest with
        | [] => .panicked "byte index 1 out of range"
        | c1 :: rest1 =>
          if utf8_len c1 = 1 then .ok (kv_unescape (rest.take 0), rest1)
          else .panicked "byte index 1 is not a char boundary"
    else .error .ExpectedString

/-- `deserialize_option` (lines 359-369): if the cursor starts with the
literal `null`, consume it and yield `none`; otherwise delegate to the inner
decode at the very same cursor position. -/
def deserialize_option (inner : List Char → PResult Error (α × List Char))
    (input : List Char) : PResult Error (Option α × List Char) :=
  if starts_with (chars "null") input then .ok (none, input.drop 4)
  else
    match inner input with
    | .ok (v, rest) => .ok (some v, rest)
    | .error e => .error e
    | .panicked m => .panicked m

/-- Top-level `from_str` (lines 38-49): run the decode, then require the
cursor to be exhausted, else `TrailingCharacters`. -/
def from_str (dec : List Char → PResult Error (α × List Char))
    (s : List Char) : PResult Error α :=
  match dec s with
  | .ok (t, rest) => if rest.isEmpty then .ok t else .error .TrailingCharacters
  | .error e => .error e
  | .panicked m => .panicked m

/-! ### The self-describing skip (`deserialize_any` / `deserialize_ignored_any`)

`deserialize_any` (lines 198-212) sniffs the first character and dispatches;
the serde-derived struct visitors invoke it (through
`deserialize_ignored_any`, lines 546-551) to skip the value of an unknown
field, and `IgnoredAny`'s own visitor drains sequences and maps through the
`CommaSeparated` accessors.  `fuel` is an upper bound on the number of loop
iterations (any value larger than the input length is enough, since every
iteration consumes at least one character). -/

mutual

def skip_any : Nat → List Char → PResult Error (List Char)
  | 0, _ => .error (.Message "fuel exhausted")
  | Nat.succ fuel, input =>
    match input with
    | [] => .error .Eof
    | c :: cs =>
      if c = 'n' then
        -- deserialize_unit (lines 372-382)
        if starts_with (chars "null") input then .ok (input.drop 4)
        else .error .ExpectedNull
      else if c = 't' ∨ c = 'f' then
        match parse_bool input with
        | .ok (_, rest) => .ok rest
        | .error e => .error e
        | .panicked m => .panicked m
      else if c = '"' then
        match parse_string input with
        | .ok (_, rest) => .ok rest
        | .error e => .error e
        | .panicked m => .panicked m
      else if '0' ≤ c ∧ c ≤ '9' then
        -- deserialize_u64 (lines 286-291)
        match parse_unsigned 64 input with
        | .ok (_, rest) => .ok rest
        | .error e => .error e
        | .panicked m => .panicked m
      else if c = '-' then
        -- deserialize_i64 (lines 258-263)
        match parse_signed 64 input with
        | .ok (_, rest) => .ok rest
        | .error e => .error e
        | .panicked m => .panicked m
      else if c = '[' then do
        -- deserialize_seq (lines 413-430) driven by the IgnoredAny visitor
        let rest ← skip_seq_items fuel true cs
        match rest with
        | c2 :: r2 => if c2 = ']' then .ok r2 else .error .ExpectedArrayEnd
        | [] => .error .Eof
      else if c = '\x7b' then do
        -- deserialize_map (lines 461-478) driven by the IgnoredAny visitor
        let rest ← skip_map_items fuel true cs
        match rest with
        | c2 :: r2 => if c2 = '\x7d' then .ok r2 else .error .ExpectedMapEnd
        | [] => .error .Eof
      else .error .Syntax

def skip_seq_items : Nat → Bool → List Char → PResult Error (List Char)
  | 0, _, _ => .error (.Message "fuel exhausted")
  | Nat.succ fuel, first, input =>
    match input with
    | [] => .error .Eof
    | c :: _ =>
      if c = ']' then .ok input
      else do
        let input2 ←
          if first then pure input
          else
            match input with
            | c2 :: t => if c2 = ',' then pure t else .error .ExpectedArrayComma
            | [] => .error .Eof
        let r ← skip_any fuel input2
        skip_seq_items fuel false r

def skip_map_items : Nat → Bool → List Char → PResult Error (List Char)
  | 0, _, _ => .error (.Message "fuel exhausted")
  | Nat.succ fuel, first, input =>
    match input with
    | [] => .error .Eof
    | c :: _ =>
      if c = '\x7d' then .ok input
      else do
        let input2 ←
          if first then pure input
          else
            match input with
            | c2 :: t => if c2 = ',' then pure t else .error .ExpectedMapComma
            | [] => .error .Eof
        let r1 ← skip_any fuel input2
        let r2 ←
          match r1 with
          | c2 :: t => if c2 = ':' then pure t else .error .ExpectedMapColon
          | [] => .error .Eof
        let r3 ← skip_any fuel r2
        skip_map_items fuel false r3

end

/-! ### Map decode into key/value pairs

The `MapAccess` loop of `CommaSeparated` (lines 593-627) driven by a
`HashMap<String, String>`-style visitor: each key and each value is decoded
with the string decode, a `,` is required before every entry except the
first, and the loop stops when `}` is peeked. -/

def map_items : Nat → Bool → List Char → PResult Error (List (List Char × List Char) × List Char)
  | 0, _, _ => .error (.Message "fuel exhausted")
  | Nat.succ fuel, first, input =>
    match input with
    | [] => .error .Eof
    | c :: _ =>
      if c = '\x7d' then .ok ([], input)
      else do
        let input2 ←
          if first then pure input
          else
            match input with
            | c2 :: t => if c2 = ',' then pure t else .error .ExpectedMapComma
            | [] => .error .Eof
        let (k, r1) ← parse_string input2
        let r2 ←
          match r1 with
          | c2 :: t => if c2 = ':' then pure t else .error .ExpectedMapColon
          | [] => .error .Eof
        let (v, r3) ← parse_string r2
        let (items, r4) ← map_items fuel false r3
        .ok ((k, v) :: items, r4)

/-- `deserialize_map` (lines 461-478) for a string-to-string map target:
require `{`, run the entry loop, then require the closing `}`. -/
def deserialize_map_pairs (input : List Char) :
    PResult Error (List (List Char × List Char) × List Char) :=
  match input with
  | [] => .error .Eof
  | c :: cs =>
    if c = '\x7b' then do
      let (items, rest) ← map_items (input.length + 1) true cs
      match rest with
      | c2 :: r2 => if c2 = '\x7d' then .ok (items, r2) else .error .ExpectedMapEnd
      | [] => .error .Eof
    else .error .ExpectedMap

/-! ### Derived struct decoders

`deserialize_struct` forwards to `deserialize_map` (lines 486-496); the
serde-derived visitor decodes each key through `deserialize_identifier`
(= the string decode), requires `:` before each value
(`next_value_seed`, lines 614-626), decodes the value at the field's type,
rejects duplicate fields, ignores unknown fields via
`deserialize_ignored_any`, and finally checks that every field was seen. -/

/-- The scenario record of the spec and of the `test_struct` unit test:
a signed integer `id`, a string `name`, an unsigned 64-bit `ud`. -/
structure TestRec where
  id : Int
  name : List Char
  ud : Nat
  deriving DecidableEq, Repr

def test_struct_items : Nat → Bool → Option Int → Option (List Char) → Option Nat →
    List Char → PResult Error ((Option Int × Option (List Char) × Option Nat) × List Char)
  | 0, _, _, _, _, _ => .error (.Message "fuel exhausted")
  | Nat.succ fuel, first, oid, oname, oud, input =>
    match input with
    | [] => .error .Eof
    | c :: _ =>
      if c = '\x7d' then .ok ((oid, oname, oud), input)
      else do
        let input2 ←
          if first then pure input
          else
            match input with
            | c2 :: t => if c2 = ',' then pure t else .error .ExpectedMapComma
            | [] => .error .Eof
        let (key, r1) ← parse_string input2
        let r2 ←
          match r1 with
          | c2 :: t => if c2 = ':' then pure t else .error .ExpectedMapColon
          | [] => .error .Eof
        if key = chars "id" then
          match oid with
          | some _ => .error (.Message "duplicate field id")
          | none => do
            let (v, r3) ← parse_signed 32 r2
            test_struct_items fuel false (some v) oname oud r3
        else if key = chars "name" then
          match oname with
          | some _ => .error (.Message "duplicate field name")
          | none => do
            let (v, r3) ← parse_string r2
            test_struct_items fuel false oid (some v) oud r3
        else if key = chars "ud" then
          match oud with
          | some _ => .error (.Message "duplicate field ud")
          | none => do
            let (v, r3) ← parse_unsigned 64 r2
            test_struct_items fuel false oid oname (some v) r3
        else do
          let r3 ← skip_any fuel r2
          test_struct_items fuel false oid oname oud r3

/-- Decode one `TestRec`: `{`, the field loop, the missing-field checks of the
derived visitor, then the closing `}` of `deserialize_map`. -/
def test_deserialize (input : List Char) : PResult Error (TestRec × List Char) :=
  match input with
  | [] => .error .Eof
  | c :: cs =>
    if c = '\x7b' then do
      let ((oid, oname, oud), rest) ← test_struct_items (input.length + 1) true none none none cs
      let t ←
        match oid, oname, oud with
        | some i, some n, some u => pure (TestRec.mk i n u)
        | none, _, _ => .error (.Message "missing field id")
        | _, none, _ => .error (.Message "missing field name")
        | _, _, none => .error (.Message "missing field ud")
      match rest with
      | c2 :: r2 => if c2 = '\x7d' then .ok (t, r2) else .error .ExpectedMapEnd
      | [] => .error .Eof
    else .error .ExpectedMap

/-- A record with a single optional string field `f`, for the `Option`
round-trip claims. -/
structure OptRec where
  f : Option (List Char)
  deriving DecidableEq, Repr

def opt_rec_items : Nat → Bool → Option (Option (List Char)) → List Char →
    PResult Error (Option (Option (List Char)) × List Char)
  | 0, _, _, _ => .error (.Message "fuel exhausted")
  | Nat.succ fuel, first, ofv, input =>
    match input with
    | [] => .error .Eof
    | c :: _ =>
      if c = '\x7d' then .ok (ofv, input)
      else do
        let input2 ←
          if first then pure input
          else
            match input with
            | c2 :: t => if c2 = ',' then pure t else .error .ExpectedMapComma
            | [] => .error .Eof
        let (key, r1) ← parse_string input2
        let r2 ←
          match r1 with
          | c2 :: t => if c2 = ':' then pure t else .error .ExpectedMapColon
          | [] => .error .Eof
        if key = chars "f" then
          match ofv with
          | some _ => .error (.Message "duplicate field f")
          | none => do
            let (v, r3) ← deserialize_option parse_string r2
            opt_rec_items fuel false (some v) r3
        else do
          let r3 ← skip_any fuel r2
          opt_rec_items fuel false ofv r3

def opt_rec_deserialize (input : List Char) : PResult Error (OptRec × List Char) :=
  match input with
  | [] => .error .Eof
  | c :: cs =>
    if c = '\x7b' then do
      let (ofv, rest) ← opt_rec_items (input.length + 1) true none cs
      let t ←
        match ofv with
        | some v => pure (OptRec.mk v)
        | none => .error (.Message "missing field f")
      match rest with
      | c2 :: r2 => if c2 = '\x7d' then .ok (t, r2) else .error .ExpectedMapEnd
      | [] => .error .Eof
    else .error .ExpectedMap

/-- A record with a single signed integer field `id`, for the error-propagation
claims. -/
structure IdRec where
  id : Int
  deriving DecidableEq, Repr

def id_rec_items : Nat → Bool → Option Int → List Char →
    PResult Error (Option Int × List Char)
  | 0, _, _, _ => .error (.Message "fuel exhausted")
  | Nat.succ fuel, first, oid, input =>
    match input with
    | [] => .error .Eof
    | c :: _ =>
      if c = '\x7d' then .ok (oid, input)
      else do
        let input2 ←
          if first then pure input
          else
            match input with
            | c2 :: t => if c2 = ',' then pure t else .error .ExpectedMapComma
            | [] => .error .Eof
        let (key, r1) ← parse_string input2
        let r2 ←
          match r1 with
          | c2 :: t => if c2 = ':' then pure t else .error .ExpectedMapColon
          | [] => .error .Eof
        if key = chars "id" then
          match oid with
          | some _ => .error (.Message "duplicate field id")
          | none => do
            let (v, r3) ← parse_signed 32 r2
            id_rec_items fuel false (some v) r3
        else do
          let r3 ← skip_any fuel r2
          id_rec_items fuel false oid r3

def id_rec_deserialize (input : List Char) : PResult Error (IdRec × List Char) :=
  match input with
  | [] => .error .Eof
  | c :: cs =>
    if c = '\x7b' then do
      let (oid, rest) ← id_rec_items (input.length + 1) true none cs
      let t ←
        match oid with
        | some v => pure (IdRec.mk v)
        | none => .error (.Message "missing field id")
      match rest with
      | c2 :: r2 => if c2 = '\x7d' then .ok (t, r2) else .error .ExpectedMapEnd
      | [] => .error .Eof
    else .error .ExpectedMap

/-! ### Enum decode

`deserialize_enum` (lines 498-522): a leading `"` means a plain quoted
string naming a unit variant; otherwise `{` is required (any other leading
character is `ExpectedEnum`), the variant-name key is decoded as a string,
`:` is required (`Enum::variant_seed`, lines 648-662), the payload is decoded
according to the declared variant shape (`VariantAccess`, lines 667-706:
unit ⇒ `ExpectedString`; newtype ⇒ direct inner decode; tuple ⇒ sequence
decode of the declared arity; struct ⇒ map decode), and finally the closing
`}` is required.  `WireEnum` is a representative enum with one variant of
each payload shape. -/

inductive WireEnum where
  | VUnit : WireEnum
  | VNew : Int → WireEnum
  | VTup : Int → Int → WireEnum
  | VStruct : List Char → WireEnum
  deriving DecidableEq, Repr

inductive VariantTag where
  | tUnit | tNew | tTup | tStruct
  deriving DecidableEq, Repr

/-- The derived variant-identifier visitor: which declared variant a decoded
name designates. -/
def variant_of_name (n : List Char) : Option VariantTag :=
  if n = chars "VUnit" then some .tUnit
  else if n = chars "VNew" then some .tNew
  else if n = chars "VTup" then some .tTup
  else if n = chars "VStruct" then some .tStruct
  else none

/-- The single-field (`field : String`) payload struct of the struct variant:
field loop plus missing-field check plus braces, as for the other records. -/
def variant_field_items : Nat → Bool → Option (List Char) → List Char →
    PResult Error (Option (List Char) × List Char)
  | 0, _, _, _ => .error (.Message "fuel exhausted")
  | Nat.succ fuel, first, ofv, input =>
    match input with
    | [] => .error .Eof
    | c :: _ =>
      if c = '\x7d' then .ok (ofv, input)
      else do
        let input2 ←
          if first then pure input
          else
            match input with
            | c2 :: t => if c2 = ',' then pure t else .error .ExpectedMapComma
            | [] => .error .Eof
        let (key, r1) ← parse_string input2
        let r2 ←
          match r1 with
          | c2 :: t => if c2 = ':' then pure t else .error .ExpectedMapColon
          | [] => .error .Eof
        if key = chars "field" then
          match ofv with
          | some _ => .error (.Message "duplicate field field")
          | none => do
            let (v, r3) ← parse_string r2
            variant_field_items fuel false (some v) r3
        else do
          let r3 ← skip_any fuel r2
          variant_field_items fuel false ofv r3

def variant_struct_deserialize (input : List Char) : PResult Error (List Char × List Char) :=
  match input with
  | [] => .error .Eof
  | c :: cs =>
    if c = '\x7b' then do
      let (ofv, rest) ← variant_field_items (input.length + 1) true none cs
      let v ←
        match ofv with
        | some v => pure v
        | none => .error (.Message "missing field field")
      match rest with
      | c2 :: r2 => if c2 = '\x7d' then .ok (v, r2) else .error .ExpectedMapEnd
      | [] => .error .Eof
    else .error .ExpectedMap

def deserialize_enum (input : List Char) : PResult Error (WireEnum × List Char) :=
  match input with
  | [] => .error .Eof
  | c :: cs =>
    if c = '"' then do
      -- unit variant as a plain quoted string (`visit_enum(...into_deserializer())`)
      let (name, rest) ← parse_string input
      match variant_of_name name with
      | some .tUnit => .ok (.VUnit, rest)
      | some _ => .error (.Message "invalid type: unit variant expected")
      | none => .error (.Message "unknown variant")
    else if c = '\x7b' then do
      let (name, r1) ← parse_string cs
      let tag ←
        match variant_of_name name with
        | some t => pure t
        | none => .error (.Message "unknown variant")
      let r2 ←
        match r1 with
        | c2 :: t => if c2 = ':' then pure t else .error .ExpectedMapColon
        | [] => .error .Eof
      let (v, r3) ←
        match tag with
        | .tUnit => (.error .ExpectedString : PResult Error (WireEnum × List Char))
        | .tNew => do
          let (n, r) ← parse_signed 32 r2
          pure (WireEnum.VNew n, r)
        | .tTup =>
          (match r2 with
           | [] => .error .Eof
           | c3 :: r3a =>
             if c3 = '[' then do
               let r4 ←
                 match r3a with
                 | [] => .error .Eof
                 | c4 :: _ =>
                   if c4 = ']' then .error (.Message "invalid length 0")
                   else pure r3a
               let (a, r5) ← parse_signed 32 r4
               let r6 ←
                 match r5 with
                 | [] => .error .Eof
                 | c5 :: t5 =>
                   if c5 = ']' then .error (.Message "invalid length 1")
                   else if c5 = ',' then pure t5
                   else .error .ExpectedArrayComma
               let (b, r7) ← parse_signed 32 r6
               match r7 with
               | c6 :: t6 =>
                 if c6 = ']' then pure (WireEnum.VTup a b, t6)
                 else .error .ExpectedArrayEnd
               | [] => .error .Eof
             else .error .ExpectedArray)
        | .tStruct => do
          let (f, r) ← variant_struct_deserialize r2
          pure (WireEnum.VStruct f, r)
      match r3 with
      | c7 :: t7 => if c7 = '\x7d' then .ok (v, t7) else .error .ExpectedMapEnd
      | [] => .error .Eof
    else .error .ExpectedEnum

/-! ### Row reconstruction (`QueryBuilder::run`, src/lib/src/sqlite.rs)

A row is the positional bag of optional string values obtained from the
driver (`Row.get::<String>(i)` yields `None` both for a missing index and a
stored NULL).  `run` for the multi-row shape (lines 405-446) builds one
`{"field":value,...}` object per row and decodes it, turning any decode
failure into `ORMError::Unknown` and aborting; `run` for the find-one shape
(lines 307-342) returns `Ok(None)` on zero rows, otherwise appends the
entries of **every** row into a single object and calls
`from_str(...).unwrap()` on it — the `unwrap` panics on a decode failure,
modelled by the `panicked` outcome. -/

def get_col (row : List (Option (List Char))) (i : Nat) : Option (List Char) :=
  match row.get? i with
  | some v => v
  | none => none

/-- One `"column":value` entry: a present value is quoted and
`escape_json`-escaped, an absent one becomes the bare token `null`
(lines 321-330). -/
def build_value : Option (List Char) → List Char
  | some v => '"' :: (escape_json v ++ ['"'])
  | none => chars "null"

def build_entry (column : List Char) (v : Option (List Char)) : List Char :=
  '"' :: (column ++ '"' :: ':' :: build_value v)

/-- The inner `for column in columns.iter()` loop with its lockstep column
index `i`. -/
def row_entries (row : List (Option (List Char))) :
    List (List Char) → Nat → List (List Char)
  | [], _ => []
  | col :: cols, i => build_entry col (get_col row i) :: row_entries row cols (i + 1)

/-- The outer `for row in rows` loop of the find-one path, which keeps pushing
into one shared `column_str` vector across rows (lines 318-333). -/
def all_rows_entries (columns : List (List Char)) :
    List (List (Option (List Char))) → List (List Char)
  | [] => []
  | r :: rs => row_entries r columns 0 ++ all_rows_entries columns rs

/-- `Vec::join(",")`. -/
def join_comma : List (List Char) → List Char
  | [] => []
  | [x] => x
  | x :: y :: rest => x ++ ',' :: join_comma (y :: rest)

/-- `format!("{{{}}}", column_str.join(","))`. -/
def build_object (entries : List (List Char)) : List Char :=
  '\x7b' :: (join_comma entries ++ ['\x7d'])

/-- The `ORMError` variants reachable from the modelled fragment of `run`. -/
inductive ORMErr where
  | Unknown | NoConnection | InsertError
  deriving DecidableEq, Repr

/-- Outcome of the find-one `run`: a returned value, or a panic raised by
`deserializer_key_values::from_str(&user_str).unwrap()` carrying the decode
error (sqlite.rs line 336 / mysql.rs line 446). -/
inductive FindOneOutcome (α : Type) where
  | ok : Option α → FindOneOutcome α
  | panicked : Error → FindOneOutcome α
  deriving DecidableEq, Repr

/-- `QueryBuilder::<Option<T>, T>::run` after the rows are retrieved
(sqlite.rs lines 310-341, mysql.rs lines 420-451). -/
def run_find_one (dec : List Char → PResult Error (α × List Char))
    (columns : List (List Char)) (rows : List (List (Option (List Char)))) :
    FindOneOutcome α :=
  match rows with
  | [] => .ok none
  | _ :: _ =>
    match from_str dec (build_object (all_rows_entries columns rows)) with
    | .ok t => .ok (some t)
    | .error e => .panicked e
    | .panicked m => .panicked (.Message m)

/-- `QueryBuilder::<Vec<T>, T>::run` after the rows are retrieved
(sqlite.rs lines 405-446, mysql.rs lines 540-581): one object per row,
decode failure ⇒ `Err(ORMError::Unknown)` aborting the remaining rows. -/
def run_many (dec : List Char → PResult Error (α × List Char))
    (columns : List (List Char)) :
    List (List (Option (List Char))) → PResult ORMErr (List α)
  | [] => .ok []
  | r :: rs =>
    match from_str dec (build_object (row_entries r columns 0)) with
    | .ok t =>
      match run_many dec columns rs with
      | .ok ts => .ok (t :: ts)
      | .error e => .error e
      | .panicked m => .panicked m
    | .error _ => .error .Unknown
    | .panicked m => .panicked m

/-! ### Specification-level helpers used only in proofs -/

/-- Per-character shape of `escape_json`'s output: `\` ↦ `\\`, `"` ↦ `\"`,
anything else unchanged. -/
def esc_tok (c : Char) : List Char :=
  if c = '\\' then ['\\', '\\'] else if c = '"' then ['\\', '"'] else [c]

/-- Per-character shape of the intermediate string after the first unescape
pass (`\"` ↦ `"`): `\` still doubled, `"` now bare. -/
def mid_tok (c : Char) : List Char :=
  if c = '\\' then ['\\', '\\'] else if c = '"' then ['"'] else [c]

/-- `mid_tok` mapped over a string. -/
def mid_form : List Char → List Char
  | [] => []
  | c :: s => mid_tok c ++ mid_form s

/-- The digit-run value `acc = acc * 10 + digit` described by the spec. -/
def digits_val (ds : List Char) : Int :=
  ds.foldl (fun a ch => a * 10 + ((ch.toNat : Int) - 48)) 0

/-! ### Lemmas about the escaping round trip -/

theorem replace1_append (p : Char) (rep : List Char) :
    ∀ (a b : List Char), replace1 p rep (a ++ b) = replace1 p rep a ++ replace1 p rep b := by
  intro a b
  induction a with
  | nil => rfl
  | cons c t ih =>
    by_cases h : c = p
    · simp [replace1, h, ih]
    · simp [replace1, h, ih]

theorem escape_json_cons (c : Char) (s : List Char) :
    escape_json (c :: s) = esc_tok c ++ escape_json s := by
  by_cases h1 : c = '\\'
  · subst h1; rfl
  · by_cases h2 : c = '"'
    · subst h2; rfl
    · simp only [escape_json, replace1, if_neg h1, if_neg h2, esc_tok]
      rfl

theorem escape_json_head_ne_quote :
    ∀ (s : List Char) (t : Char) (T : List Char), escape_json s = t :: T → t ≠ '"' := by
  intro s t T h
  cases s with
  | nil => exact absurd h (by simp [escape_json, replace1])
  | cons c s' =>
    rw [escape_json_cons] at h
    by_cases h1 : c = '\\'
    · subst h1
      simp only [esc_tok, if_pos rfl, List.cons_append] at h
      rw [show t = '\\' from (List.cons.injEq _ _ _ _ ▸ h).1.symm]
      decide
    · by_cases h2 : c = '"'
      · subst h2
        simp only [esc_tok, if_neg h1, if_pos rfl, List.cons_append] at h
        rw [show t = '\\' from (List.cons.injEq _ _ _ _ ▸ h).1.symm]
        decide
      · simp only [esc_tok, if_neg h1, if_neg h2, List.cons_append, List.nil_append] at h
        rw [show t = c from (List.cons.injEq _ _ _ _ ▸ h).1.symm]
        exact h2

theorem replace2_cons_ne_fst (p1 p2 c : Char) (rep l : List Char) (h : c ≠ p1) :
    replace2 p1 p2 rep (c :: l) = c :: replace2 p1 p2 rep l := by
  cases l with
  | nil => rfl
  | cons c2 cs => simp [replace2, h]

theorem replace2_cons_ne_snd (p1 p2 c1 c2 : Char) (rep l : List Char) (h : c2 ≠ p2) :
    replace2 p1 p2 rep (c1 :: c2 :: l) = c1 :: replace2 p1 p2 rep (c2 :: l) := by
  by_cases h1 : c1 = p1
  · simp [replace2, h1, h]
  · simp [replace2, h1]

theorem unescape_pass1 :
    ∀ (s : List Char), replace2 '\\' '"' ['"'] (escape_json s) = mid_form s := by
  intro s
  induction s with
  | nil => rfl
  | cons c s' ih =>
    by_cases h1 : c = '\\'
    · subst h1
      have h0 : escape_json ('\\' :: s') = '\\' :: '\\' :: escape_json s' := by
        rw [escape_json_cons]; rfl
      rw [h0, replace2_cons_ne_snd _ _ _ _ _ _ (by decide : ('\\' : Char) ≠ '"')]
      have hbs : replace2 '\\' '"' ['"'] ('\\' :: escape_json s') =
          '\\' :: replace2 '\\' '"' ['"'] (escape_json s') := by
        cases hE : escape_json s' with
        | nil => rfl
        | cons t T =>
          exact replace2_cons_ne_snd _ _ _ _ _ _ (escape_json_head_ne_quote s' t T hE)
      rw [hbs, ih]
      rfl
    · by_cases h2 : c = '"'
      · subst h2
        have h0 : escape_json ('"' :: s') = '\\' :: '"' :: escape_json s' := by
          rw [escape_json_cons]; rfl
        rw [h0]
        show '"' :: replace2 '\\' '"' ['"'] (escape_json s') = mid_form ('"' :: s')
        rw [ih]
        rfl
      · have h0 : escape_json (c :: s') = c :: escape_json s' := by
          rw [escape_json_cons]
          simp [esc_tok, h1, h2]
        rw [h0, replace2_cons_ne_fst _ _ _ _ _ h1, ih]
        simp [mid_form, mid_tok, h1, h2]

theorem unescape_pass2 :
    ∀ (s : List Char), replace2 '\\' '\\' ['\\'] (mid_form s) = s := by
  intro s
  induction s with
  | nil => rfl
  | cons c s' ih =>
    by_cases h1 : c = '\\'
    · subst h1
      show replace2 '\\' '\\' ['\\'] ('\\' :: '\\' :: mid_form s') = '\\' :: s'
      rw [show replace2 '\\' '\\' ['\\'] ('\\' :: '\\' :: mid_form s') =
          '\\' :: replace2 '\\' '\\' ['\\'] (mid_form s') from rfl, ih]
    · by_cases h2 : c = '"'
      · subst h2
        show replace2 '\\' '\\' ['\\'] ('"' :: mid_form s') = '"' :: s'
        rw [replace2_cons_ne_fst _ _ _ _ _ (by decide : ('"' : Char) ≠ '\\'), ih]
      · show replace2 '\\' '\\' ['\\'] ((mid_tok c) ++ mid_form s') = c :: s'
        simp only [mid_tok, if_neg h1, if_neg h2, List.cons_append, List.nil_append]
        rw [replace2_cons_ne_fst _ _ _ _ _ h1, ih]

theorem kv_unescape_escape_json (s : List Char) : kv_unescape (escape_json s) = s := by
  show replace2 '\\' '\\' ['\\'] (replace2 '\\' '"' ['"'] (escape_json s)) = s
  rw [unescape_pass1, unescape_pass2]

theorem scan_quote_bs_cons (l : List Char) :
    scan_quote ('\\' :: l) false =
      match scan_quote l true with
      | some n => some (n + 1)
      | none => none := rfl

theorem scan_quote_esc_cons (c : Char) (l : List Char) :
    scan_quote (c :: l) true =
      match scan_quote l false with
      | some n => some (n + 1)
      | none => none := rfl

theorem scan_quote_other_cons (c : Char) (l : List Char) (h1 : c ≠ '\\') (h2 : c ≠ '"') :
    scan_quote (c :: l) false =
      match scan_quote l false with
      | some n => some (n + 1)
      | none => none := by
  simp [scan_quote, h1, h2]

theorem scan_quote_escape_json :
    ∀ (s rest : List Char),
      scan_quote (escape_json s ++ '"' :: rest) false = some (escape_json s).length := by
  intro s rest
  induction s with
  | nil => rfl
  | cons c s' ih =>
    by_cases h1 : c = '\\'
    · subst h1
      have h0 : escape_json ('\\' :: s') = '\\' :: '\\' :: escape_json s' := by
        rw [escape_json_cons]; rfl
      rw [h0, List.cons_append, List.cons_append, scan_quote_bs_cons,
        scan_quote_esc_cons, ih]
      rfl
    · by_cases h2 : c = '"'
      · subst h2
        have h0 : escape_json ('"' :: s') = '\\' :: '"' :: escape_json s' := by
          rw [escape_json_cons]; rfl
        rw [h0, List.cons_append, List.cons_append, scan_quote_bs_cons,
          scan_quote_esc_cons, ih]
        rfl
      · have h0 : escape_json (c :: s') = c :: escape_json s' := by
          rw [escape_json_cons]
          simp [esc_tok, h1, h2]
        rw [h0, List.cons_append, scan_quote_other_cons c _ h1 h2, ih]
        rfl

theorem take_len_append (a b : List Char) : (a ++ b).take a.length = a := by
  induction a with
  | nil => rfl
  | cons c t ih => simp [List.take, ih]

theorem drop_len_append_cons (a : List Char) (c : Char) (b : List Char) :
    (a ++ c :: b).drop (a.length + 1) = b := by
  induction a with
  | nil => rfl
  | cons x t ih => exact ih

/-! ### Lemmas about the numeric decode -/

theorem find_quote_append (l rest : List Char) (h : ∀ c ∈ l, c ≠ '"') :
    find_quote (l ++ '"' :: rest) = some l.length := by
  induction l with
  | nil => rfl
  | cons c t ih =>
    have hc : c ≠ '"' := h c (by simp)
    have ih2 := ih (fun x hx => h x (by simp [hx]))
    show find_quote (c :: (t ++ '"' :: rest)) = some (c :: t).length
    simp only [find_quote, if_neg hc]
    rw [ih2]
    rfl

theorem as_i8_digit (c : Char) (h : 48 ≤ c.toNat ∧ c.toNat ≤ 57) :
    as_i8 (digit_u8 c) = (c.toNat : Int) - 48 := by
  have hd : digit_u8 c = c.toNat - 48 := by unfold digit_u8; omega
  rw [hd]
  unfold as_i8
  have hlt : (c.toNat - 48) % 256 = c.toNat - 48 := Nat.mod_eq_of_lt (by omega)
  rw [hlt, if_pos (by omega)]
  omega

theorem wrap_int_eq_self (w : Nat) (hw : 0 < w) (n : Int)
    (h1 : -(2 ^ (w - 1)) ≤ n) (h2 : n < 2 ^ (w - 1)) : wrap_int w n = n := by
  have hq : (2 : Int) ^ w = 2 ^ (w - 1) * 2 := by
    conv_lhs => rw [show w = (w - 1) + 1 by omega]
    rw [pow_succ]
  unfold wrap_int
  rw [Int.emod_eq_of_lt (by linarith) (by linarith)]
  ring

theorem exact_fold_ge :
    ∀ (ds : List Char) (acc : Int), (∀ c ∈ ds, 48 ≤ c.toNat ∧ c.toNat ≤ 57) → 0 ≤ acc →
      acc ≤ ds.foldl (fun a ch => a * 10 + ((ch.toNat : Int) - 48)) acc := by
  intro ds
  induction ds with
  | nil => intro acc _ _; exact le_refl acc
  | cons c t ih =>
    intro acc h ha
    have h48 := (h c (by simp)).1
    have hd : (0 : Int) ≤ (c.toNat : Int) - 48 := by omega
    have h9 : (0 : Int) ≤ acc * 9 := mul_nonneg ha (by norm_num)
    have ha' : (0 : Int) ≤ acc * 10 + ((c.toNat : Int) - 48) := by linarith
    calc acc ≤ acc * 10 + ((c.toNat : Int) - 48) := by linarith
      _ ≤ t.foldl (fun a ch => a * 10 + ((ch.toNat : Int) - 48))
            (acc * 10 + ((c.toNat : Int) - 48)) :=
        ih _ (fun x hx => h x (by simp [hx])) ha'

/-- Along a digit run whose exact accumulated value stays below `2^(w-1)`,
every intermediate value of the loop stays in range, so the per-step wrapping
of the machine accumulation never fires and the wrapped fold computes the
exact fold. -/
theorem wrap_fold_digits (w : Nat) (hw : 0 < w) :
    ∀ (ds : List Char) (acc : Int),
      (∀ c ∈ ds, 48 ≤ c.toNat ∧ c.toNat ≤ 57) → 0 ≤ acc →
      ds.foldl (fun a ch => a * 10 + ((ch.toNat : Int) - 48)) acc < 2 ^ (w - 1) →
      ds.foldl (fun a ch => wrap_int w (wrap_int w (a * 10) + as_i8 (digit_u8 ch))) acc
        = ds.foldl (fun a ch => a * 10 + ((ch.toNat : Int) - 48)) acc := by
  intro ds
  induction ds with
  | nil => intro acc _ _ _; rfl
  | cons c t ih =>
    intro acc h ha hbound
    have hc := h c (by simp)
    have h48 := hc.1
    have hd0 : (0 : Int) ≤ (c.toNat : Int) - 48 := by omega
    have hP : (0 : Int) < 2 ^ (w - 1) := by positivity
    have hfold_cons : (c :: t).foldl (fun a ch => a * 10 + ((ch.toNat : Int) - 48)) acc
        = t.foldl (fun a ch => a * 10 + ((ch.toNat : Int) - 48))
            (acc * 10 + ((c.toNat : Int) - 48)) := rfl
    have hmul_ge : (0 : Int) ≤ acc * 10 := mul_nonneg ha (by norm_num)
    have ha' : (0 : Int) ≤ acc * 10 + ((c.toNat : Int) - 48) := by linarith
    have hge : acc * 10 + ((c.toNat : Int) - 48)
        ≤ t.foldl (fun a ch => a * 10 + ((ch.toNat : Int) - 48))
            (acc * 10 + ((c.toNat : Int) - 48)) :=
      exact_fold_ge t _ (fun x hx => h x (by simp [hx])) ha'
    have hbound' : t.foldl (fun a ch => a * 10 + ((ch.toNat : Int) - 48))
        (acc * 10 + ((c.toNat : Int) - 48)) < 2 ^ (w - 1) := by
      rw [hfold_cons] at hbound
      exact hbound
    have hacc'lt : acc * 10 + ((c.toNat : Int) - 48) < 2 ^ (w - 1) := by linarith
    have hmul_lt : acc * 10 < 2 ^ (w - 1) := by linarith
    have hw1 : wrap_int w (acc * 10) = acc * 10 :=
      wrap_int_eq_self w hw _ (by linarith) hmul_lt
    have hai : as_i8 (digit_u8 c) = (c.toNat : Int) - 48 := as_i8_digit c hc
    have hw2 : wrap_int w (acc * 10 + ((c.toNat : Int) - 48))
        = acc * 10 + ((c.toNat : Int) - 48) :=
      wrap_int_eq_self w hw _ (by linarith) hacc'lt
    show t.foldl (fun a ch => wrap_int w (wrap_int w (a * 10) + as_i8 (digit_u8 ch)))
        (wrap_int w (wrap_int w (acc * 10) + as_i8 (digit_u8 c)))
      = (c :: t).foldl (fun a ch => a * 10 + ((ch.toNat : Int) - 48)) acc
    rw [hw1, hai, hw2, hfold_cons]
    exact ih _ (fun x hx => h x (by simp [hx])) ha' hbound'

/-! ## Claim theorems -/

/-- Claim C1 — wire-format escaping round trip: for every string `s`, wrapping
`escape_json s` in double quotes and decoding with the deserializer's string
decode (escape-flag scan to the first unescaped quote, then the two
substitutions `\"` ↦ `"` followed by `\\` ↦ `\`) returns exactly `s` and
leaves exactly the input past the closing quote; in particular the string
`c:\temp "quoted"`, containing both a literal backslash and a literal double
quote, survives unchanged. -/
theorem C1_escape_round_trip :
    (∀ (s rest : List Char),
      parse_string ('"' :: (escape_json s ++ '"' :: rest)) = .ok (s, rest)) ∧
    parse_string ('"' :: (escape_json (chars "c:\\temp \"quoted\"") ++ '"' :: [])) =
      .ok (chars "c:\\temp \"quoted\"", []) := by
  have main : ∀ (s rest : List Char),
      parse_string ('"' :: (escape_json s ++ '"' :: rest)) = .ok (s, rest) := by
    intro s rest
    have hscan := scan_quote_escape_json s rest
    simp [parse_string, hscan, take_len_append, drop_len_append_cons,
      kv_unescape_escape_json]
  exact ⟨main, main (chars "c:\\temp \"quoted\"") []⟩

/-- Claim C2 — end-to-end scenario decode: the top-level `from_str` applied to
the wire object mapping `id` to the quoted token `-222`, `name` to a quoted
token containing `a`, an escaped double quote, a literal newline and an
escaped backslash, and `ud` to the quoted token `777`, decoded at a struct
with a signed integer `id`, a string `name` and an unsigned 64-bit `ud`,
succeeds with `id = -222`, `name = ['a', '"', '\n', '\\']` and `ud = 777`. -/
theorem C2_scenario_decode :
    from_str test_deserialize
      (chars "\x7b\"id\":\"-222\",\"name\":\"a\\\"\n\\\\\",\"ud\":\"777\"\x7d")
      = .ok (TestRec.mk (-222) (chars "a\"\n\\") 777) := rfl

set_option maxRecDepth 8192 in
/-- Counterexample for C3: at the 32-bit signed decode (the `deserialize_i32`
instantiation of the generic accumulator), the quoted digit run `3000000000`
exceeds `2^31`, the machine accumulation wraps, and the decoder returns
`-1294967296`, not the accumulated magnitude `3000000000` the claim's exact
`acc = acc * 10 + digit` reading asserts for every digit run. -/
theorem C3_parse_signed_overflow_counterexample :
    parse_signed 32 (chars "\"3000000000\"") = .ok (-1294967296, []) ∧
    digits_val (chars "3000000000") = 3000000000 ∧
    ((-1294967296 : Int) ≠ 3000000000) :=
  ⟨rfl, rfl, by decide⟩

/-- Claim C3 (amended) — signed integer decode: the quoted wire value `-222`
decodes to `-222` and the quoted wire value `0` decodes to `0` (at the 32-bit
width the scenario record uses); for every quoted digit run whose accumulated
value fits in the signed `w`-bit target (stays below `2^(w-1)`), the decoder
strips a single leading minus sign if present, accumulates the remaining
characters left-to-right as `acc = acc * 10 + digit` starting from `0`, and
multiplies the final accumulated magnitude by `-1` exactly when the leading
minus was present; a run whose value reaches `2^(w-1)` wraps in the machine
arithmetic instead. -/
theorem C3_parse_signed_spec :
    parse_signed 32 (chars "\"-222\"") = .ok (-222, []) ∧
    parse_signed 32 (chars "\"0\"") = .ok (0, []) ∧
    ∀ (w : Nat) (neg : Bool) (ds rest : List Char),
      0 < w →
      (∀ c ∈ ds, 48 ≤ c.toNat ∧ c.toNat ≤ 57) →
      digits_val ds < 2 ^ (w - 1) →
      parse_signed w ('"' :: ((if neg then '-' :: ds else ds) ++ '"' :: rest))
        = .ok (digits_val ds * (if neg then -1 else 1), rest) := by
  refine ⟨rfl, rfl, ?_⟩
  intro w neg ds rest hw h hbound
  have hds : ∀ x ∈ ds, x ≠ '"' := by
    intro x hx he
    have hb := h x hx
    rw [he] at hb
    exact absurd hb.1 (by decide)
  have hP : (0 : Int) < 2 ^ (w - 1) := by positivity
  have hdv0 : (0 : Int) ≤ digits_val ds := exact_fold_ge ds 0 h le_rfl
  have hwrapfold : ds.foldl
        (fun acc ch => wrap_int w (wrap_int w (acc * 10) + as_i8 (digit_u8 ch))) 0
      = digits_val ds :=
    wrap_fold_digits w hw ds 0 h le_rfl hbound
  cases neg with
  | true =>
    have hne : ∀ c ∈ '-' :: ds, c ≠ '"' := by
      intro c hc
      rcases List.mem_cons.mp hc with h1 | h1
      · rw [h1]; decide
      · exact hds c h1
    have hfq2 : find_quote ('-' :: (ds ++ '"' :: rest)) = some (ds.length + 1) := by
      simpa using find_quote_append ('-' :: ds) rest hne
    have htake : List.take (ds.length + 1) ('-' :: (ds ++ '"' :: rest)) = '-' :: ds := by
      show '-' :: List.take ds.length (ds ++ '"' :: rest) = '-' :: ds
      rw [take_len_append]
    have hsw1 : starts_with (chars "-") ('-' :: ds) = true := rfl
    have hdrop : List.drop (ds.length + 1) (ds ++ '"' :: rest) = rest :=
      drop_len_append_cons ds '"' rest
    have hres : parse_signed w ('"' :: (('-' :: ds) ++ '"' :: rest))
        = .ok (wrap_int w
            ((ds.foldl
              (fun acc ch => wrap_int w (wrap_int w (acc * 10) + as_i8 (digit_u8 ch))) 0)
             * -1), rest) := by
      simp [parse_signed, hfq2, htake, hsw1, hdrop]
    have hwrap_final : wrap_int w (digits_val ds * -1) = digits_val ds * -1 := by
      have hm : digits_val ds * -1 = -(digits_val ds) := by ring
      refine wrap_int_eq_self w hw _ ?_ ?_
      · rw [hm]; linarith
      · rw [hm]; linarith
    show parse_signed w ('"' :: (('-' :: ds) ++ '"' :: rest))
        = PResult.ok (digits_val ds * -1, rest)
    rw [hres, hwrapfold, hwrap_final]
  | false =>
    have hfq2 : find_quote (ds ++ '"' :: rest) = some ds.length :=
      find_quote_append ds rest hds
    have htake : List.take ds.length (ds ++ '"' :: rest) = ds := take_len_append ds _
    have hdrop : List.drop (ds.length + 1) (ds ++ '"' :: rest) = rest :=
      drop_len_append_cons ds '"' rest
    have hsw : starts_with (chars "-") ds = false := by
      cases ds with
      | nil => rfl
      | cons d t =>
        have hd := h d (by simp)
        have hdm : d ≠ '-' := by
          intro he
          rw [he] at hd
          exact absurd hd.1 (by decide)
        show starts_with ['-'] (d :: t) = false
        simp [starts_with, hdm]
    have hres : parse_signed w ('"' :: (ds ++ '"' :: rest))
        = .ok (wrap_int w
            ((ds.foldl
              (fun acc ch => wrap_int w (wrap_int w (acc * 10) + as_i8 (digit_u8 ch))) 0)
             * 1), rest) := by
      simp [parse_signed, hfq2, htake, hsw, hdrop]
    have hwrap_final : wrap_int w (digits_val ds * 1) = digits_val ds * 1 := by
      have hm : digits_val ds * 1 = digits_val ds := by ring
      refine wrap_int_eq_self w hw _ ?_ ?_
      · rw [hm]; linarith
      · rw [hm]; linarith
    show parse_signed w ('"' :: (ds ++ '"' :: rest))
        = PResult.ok (digits_val ds * 1, rest)
    rw [hres, hwrapfold, hwrap_final]

/-- Witness for C3: the general digit-run statement evaluated at width 32,
the leading minus and the digit run `222`, giving `-222`. -/
theorem C3_parse_signed_spec_witness :
    parse_signed 32 ('"' :: ((if true then '-' :: chars "222" else chars "222") ++ '"' :: []))
      = .ok (digits_val (chars "222") * (if true then -1 else 1), []) :=
  C3_parse_signed_spec.2.2 32 true (chars "222") [] (by decide) (by decide) (by decide)

/-- Claim C4 — null and Option handling: the row-reconstruction step emits an
absent column value as the bare four-character token `null`, never as a quoted
string; the Option decode consumes a leading literal `null` and yields the
absent value, and otherwise delegates to the inner decode at the same cursor
position with no wrapper bytes consumed; consequently an absent field
round-trips through find-one to the absent value, not to the string `"null"`. -/
theorem C4_null_option_round_trip :
    build_value none = chars "null" ∧
    (∀ l : List Char, build_value none ≠ '"' :: l) ∧
    (∀ (α : Type) (inner : List Char → PResult Error (α × List Char)) (rest : List Char),
      deserialize_option inner (chars "null" ++ rest) = .ok (none, rest)) ∧
    (∀ (α : Type) (inner : List Char → PResult Error (α × List Char)) (input : List Char),
      starts_with (chars "null") input = false →
      deserialize_option inner input =
        match inner input with
        | .ok (v, r) => .ok (some v, r)
        | .error e => .error e
        | .panicked m => .panicked m) ∧
    run_find_one opt_rec_deserialize [chars "f"] [[none]] = .ok (some (OptRec.mk none)) := by
  refine ⟨rfl, ?_, fun α inner rest => rfl, ?_, rfl⟩
  · intro l hl
    have h0 : build_value none = 'n' :: 'u' :: 'l' :: 'l' :: [] := rfl
    rw [h0] at hl
    have h2 : ('n' : Char) = '"' := (List.cons.injEq _ _ _ _ ▸ hl).1
    exact absurd h2 (by decide)
  · intro α inner input hsw
    unfold deserialize_option
    rw [hsw]
    rfl

/-- Witness for C4: the delegation branch evaluated at a cursor holding a
quoted string, which decodes to the present value. -/
theorem C4_null_option_round_trip_witness :
    deserialize_option parse_string (chars "\"x\"") = .ok (some (chars "x"), []) := by
  have h := C4_null_option_round_trip.2.2.2.1 (List Char) parse_string (chars "\"x\"")
    (by decide)
  rw [h]
  rfl

/-- Claim C5 — object delimiter strictness: the two-entry object with keys
`a`, `b` and quoted values `1`, `2` decodes to exactly two entries; removing
the comma between the entries fails with the comma-expected map error; a
trailing comma before the closing brace fails (with the string-decode error)
when the decoder attempts to read the implied next key. -/
theorem C5_map_delimiter_strictness :
    from_str deserialize_map_pairs (chars "\x7b\"a\":\"1\",\"b\":\"2\"\x7d")
      = .ok [(chars "a", chars "1"), (chars "b", chars "2")] ∧
    from_str deserialize_map_pairs (chars "\x7b\"a\":\"1\"\"b\":\"2\"\x7d")
      = .error .ExpectedMapComma ∧
    from_str deserialize_map_pairs (chars "\x7b\"a\":\"1\",\x7d")
      = .error .ExpectedString :=
  ⟨rfl, rfl, rfl⟩

/-- Counterexample for C6: a bare empty object `{}` fails with the
string-expected error raised while reading the variant-name key, not with the
enum-specific `ExpectedEnum` error the claim asserts. -/
theorem C6_enum_empty_object_counterexample :
    from_str deserialize_enum (chars "\x7b\x7d") = .error .ExpectedString ∧
    Error.ExpectedString ≠ Error.ExpectedEnum :=
  ⟨rfl, by decide⟩

/-- Claim C6 (amended) — enum decode shapes and errors: a bare quoted string
decodes as the named unit variant; a single-entry object mapping the variant
name to a payload decodes as a newtype, tuple, or struct variant according to
the declared payload shape and requires the closing brace (a wrong character
in its place is the map-end error); a bare number fails with the
enum-specific error, while a bare empty object `{}` fails with the
string-expected error raised when reading the variant-name key. -/
theorem C6_enum_shapes_amended :
    from_str deserialize_enum (chars "\"VUnit\"") = .ok WireEnum.VUnit ∧
    from_str deserialize_enum (chars "\x7b\"VNew\":\"5\"\x7d") = .ok (WireEnum.VNew 5) ∧
    from_str deserialize_enum (chars "\x7b\"VTup\":[\"1\",\"2\"]\x7d")
      = .ok (WireEnum.VTup 1 2) ∧
    from_str deserialize_enum (chars "\x7b\"VStruct\":\x7b\"field\":\"value\"\x7d\x7d")
      = .ok (WireEnum.VStruct (chars "value")) ∧
    from_str deserialize_enum (chars "\x7b\"VNew\":\"5\"x") = .error .ExpectedMapEnd ∧
    from_str deserialize_enum (chars "5") = .error .ExpectedEnum ∧
    from_str deserialize_enum (chars "\x7b\x7d") = .error .ExpectedString :=
  ⟨rfl, rfl, rfl, rfl, rfl, rfl, rfl⟩

/-- Claim C7 — error propagation (code bug): in the multi-row path a decode
failure is returned as the distinct `Unknown` error and aborts the remaining
rows, but in the single-row find-one path the code calls
`from_str(&user_str).unwrap()`, so the same decode failure panics instead of
being returned as an error value to the caller: reconstructing a single row
whose only column is absent for a record with a signed `id` field builds
`{"id":null}`, whose decode fails with `ExpectedString`, and the find-one
`run` panics with that error. -/
theorem C7_find_one_decode_failure_panics :
    run_find_one id_rec_deserialize [chars "id"] [[none]]
      = .panicked .ExpectedString ∧
    run_many id_rec_deserialize [chars "id"] [[none], [some (chars "5")]]
      = .error .Unknown :=
  ⟨rfl, rfl⟩

/-- Claim C8 — zero-row lookup: for every decoder and column list, the find-one
`run` on an empty row set returns the successful absent value, not an error. -/
theorem C8_zero_rows_returns_none :
    ∀ (α : Type) (dec : List Char → PResult Error (α × List Char))
      (columns : List (List Char)),
      run_find_one dec columns [] = FindOneOutcome.ok none :=
  fun _ _ _ => rfl

/-- Claim C9 — implicit multi-row behaviour of the find-one path: the
reconstruction loop appends the key-value entries of every returned row into
one single brace-delimited object, repeating the field names once per row,
and feeds that one combined string to the deserializer; decoding it as a
key/value map returns the entries of both rows, not only the first row's. -/
theorem C9_find_one_combines_all_rows :
    (∀ (columns : List (List Char)) (r1 r2 : List (Option (List Char))),
      all_rows_entries columns [r1, r2]
        = row_entries r1 columns 0 ++ row_entries r2 columns 0) ∧
    build_object (all_rows_entries [chars "id"] [[some (chars "1")], [some (chars "2")]])
      = chars "\x7b\"id\":\"1\",\"id\":\"2\"\x7d" ∧
    run_find_one deserialize_map_pairs [chars "id"]
        [[some (chars "1")], [some (chars "2")]]
      = .ok (some [(chars "id", chars "1"), (chars "id", chars "2")]) := by
  refine ⟨?_, rfl, rfl⟩
  intro columns r1 r2
  simp [all_rows_entries]

/-- Counterexample for C10: the input consisting of an opening quote followed
by the single character `é` satisfies the claim's hypothesis (one following
character, no subsequent unescaped quote), yet the decode does not return
successfully: `é` occupies two UTF-8 bytes, so the fallback slice
`&self.input[1..]` lands inside it and the program panics instead of
returning the empty string. -/
theorem C10_multibyte_panic_counterexample :
    scan_quote ('é' :: []) false = none ∧
    parse_string ('"' :: 'é' :: []) = .panicked "byte index 1 is not a char boundary" ∧
    parse_string ('"' :: 'é' :: []) ≠ .ok ([], []) :=
  ⟨rfl, rfl, by decide⟩

/-- Claim C10 (amended) — for every input to the string decode that begins
with a double quote, is followed by at least one character, and contains no
subsequent unescaped double quote: when that first following character
occupies a single UTF-8 byte, `parse_string` does not report `Eof` — it
returns successfully with the empty string, consuming exactly one character
after the opening quote; when it occupies more than one byte, the byte slice
at index 1 panics instead of returning. -/
theorem C10_unterminated_scan_returns_empty :
    (∀ (c : Char) (cs : List Char),
      scan_quote (c :: cs) false = none → utf8_len c = 1 →
      parse_string ('"' :: c :: cs) = .ok ([], cs)) ∧
    (∀ (c : Char) (cs : List Char),
      scan_quote (c :: cs) false = none → utf8_len c ≠ 1 →
      parse_string ('"' :: c :: cs) = .panicked "byte index 1 is not a char boundary") := by
  constructor
  · intro c cs h h1
    simp [parse_string, h, h1, kv_unescape]
    rfl
  · intro c cs h h1
    simp [parse_string, h, h1]

/-- Witness for C10: the single-byte case at the input `"ab` (opening quote,
no closing quote), which decodes to the empty string with `b` left on the
cursor, and the multi-byte case at `"éb`, which panics. -/
theorem C10_unterminated_scan_returns_empty_witness :
    parse_string ('"' :: 'a' :: chars "b") = .ok ([], chars "b") ∧
    parse_string ('"' :: 'é' :: chars "b")
      = .panicked "byte index 1 is not a char boundary" :=
  ⟨C10_unterminated_scan_returns_empty.1 'a' (chars "b") (by decide) (by decide),
   C10_unterminated_scan_returns_empty.2 'é' (chars "b") (by decide) (by decide)⟩

end Parvati
